import Mathlib

/-!
Verification development for the team auto-provisioner.

This file gives a shallow embedding, in Lean, of the tracker data model and
the orchestration logic of the repository (run.py, utils.py, config.py,
team_service.py, email_service.py, browser_automation.py), and proves the
behavioural properties stated about it.  Python dicts become association
lists, Python sets become duplicate-free lists, timestamps are supplied as
explicit parameters, and external effects (HTTP calls, browser pages, mail
polling) become explicit environment parameters.
-/

namespace Prov

/-! ## Dict helpers (Python dict as association list, first-key wins) -/

def dictFind {α : Type} (m : List (String × α)) (k : String) : Option α :=
  match m with
  | [] => none
  | (k2, v) :: rest => if k2 = k then some v else dictFind rest k

def dictSet {α : Type} (m : List (String × α)) (k : String) (v : α) : List (String × α) :=
  match m with
  | [] => [(k, v)]
  | (k2, v2) :: rest => if k2 = k then (k2, v) :: rest else (k2, v2) :: dictSet rest k v

/-! ## Data model (utils.py / run.py record shapes)

An account record is a dict with required key email and optional keys
password, status, role (read through .get with defaults in the source). -/

structure Account where
  email : String
  password : Option String
  status : Option String
  role : Option String
  created_at : String
  updated_at : String
deriving Repr, DecidableEq

structure Tracker where
  teams : List (String × List Account)
  last_updated : Option String
deriving Repr, DecidableEq

/-- The projected account dicts that process_accounts consumes
(run.py builds them with keys email, password, status, role). -/
structure AccountIn where
  email : String
  password : String
  status : String
  role : String
deriving Repr, DecidableEq

/-! ## config.py: domain helpers and blacklist -/

/-- Characters before the next at sign (used to emulate str.split). -/
def takeUntilAt : List Char → List Char
  | [] => []
  | c :: cs => if c = '@' then [] else c :: takeUntilAt cs

/-- Characters after the first at sign, or none if there is no at sign. -/
def dropThroughAt : List Char → Option (List Char)
  | [] => none
  | c :: cs => if c = '@' then some cs else dropThroughAt cs

/-- config.get_domain_from_email: if the email contains an at sign, the
chunk between the first and the second at sign (str.split element 1),
else the empty string. -/
def get_domain_from_email (email : String) : String :=
  match dropThroughAt email.data with
  | none => ""
  | some rest => String.mk (takeUntilAt rest)

/-- config.is_domain_blacklisted over the in-memory blacklist set
(modelled as a duplicate-free list). -/
def is_domain_blacklisted (bl : List String) (domain : String) : Bool :=
  decide (domain ∈ bl)

/-- config.is_email_blacklisted. -/
def is_email_blacklisted (bl : List String) (email : String) : Bool :=
  is_domain_blacklisted bl (get_domain_from_email email)

/-- The membership effect of config.add_domain_to_blacklist on the
in-memory set: add the domain iff it is non-empty and not present. -/
def blacklistAdd (bl : List String) (domain : String) : List String :=
  if domain ≠ "" ∧ domain ∉ bl then bl ++ [domain] else bl

/-- The blacklist module state: the in-memory set plus the persisted file
(_save_blacklist rewrites the file from the in-memory set). -/
structure BlacklistState where
  mem : List String
  disk : List String
deriving Repr, DecidableEq

/-- config.add_domain_to_blacklist: on a non-empty, absent domain it adds the
domain to the set, rewrites the file, and returns True; otherwise returns
False without touching memory or disk. -/
def add_domain_to_blacklist (st : BlacklistState) (domain : String) :
    BlacklistState × Bool :=
  if domain ≠ "" ∧ domain ∉ st.mem then
    ({ mem := st.mem ++ [domain], disk := st.mem ++ [domain] }, true)
  else
    (st, false)

/-! ## utils.py tracker operations -/

/-- The record appended by utils.add_account_with_password. -/
def freshAccountPw (email pw status now : String) : Account :=
  { email := email, password := some pw, status := some status,
    role := some "member", created_at := now, updated_at := now }

/-- The record appended by utils.add_account_to_tracker (no password, no role). -/
def freshAccountBare (email status now : String) : Account :=
  { email := email, password := none, status := some status,
    role := none, created_at := now, updated_at := now }

/-- Loop body of utils.add_account_with_password: update the first record
with this email in place, else append a fresh record. -/
def updateOrAppendPw (email pw status now : String) : List Account → List Account
  | [] => [freshAccountPw email pw status now]
  | a :: rest =>
    if a.email = email then
      { a with status := some status, password := some pw, updated_at := now } :: rest
    else
      a :: updateOrAppendPw email pw status now rest

/-- Loop body of utils.add_account_to_tracker: update the first record with
this email in place (status and updated_at only), else append. -/
def updateOrAppendBare (email status now : String) : List Account → List Account
  | [] => [freshAccountBare email status now]
  | a :: rest =>
    if a.email = email then
      { a with status := some status, updated_at := now } :: rest
    else
      a :: updateOrAppendBare email status now rest

/-- utils.add_account_with_password. -/
def add_account_with_password (tr : Tracker) (team email pw status now : String) :
    Tracker :=
  let cur := (dictFind tr.teams team).getD []
  { tr with teams := dictSet tr.teams team (updateOrAppendPw email pw status now cur) }

/-- utils.add_account_to_tracker. -/
def add_account_to_tracker (tr : Tracker) (team email status now : String) : Tracker :=
  let cur := (dictFind tr.teams team).getD []
  { tr with teams := dictSet tr.teams team (updateOrAppendBare email status now cur) }

/-- Loop body of utils.update_account_status: set status and updated_at of
the first record with this email, leave the rest untouched. -/
def setFirstStatus (email status now : String) : List Account → List Account
  | [] => []
  | a :: rest =>
    if a.email = email then
      { a with status := some status, updated_at := now } :: rest
    else
      a :: setFirstStatus email status now rest

/-- utils.update_account_status: no-op when the team key is absent. -/
def update_account_status (tr : Tracker) (team email status now : String) : Tracker :=
  match dictFind tr.teams team with
  | none => tr
  | some l => { tr with teams := dictSet tr.teams team (setFirstStatus email status now l) }

/-- utils.remove_account_from_tracker: filter out all records with this email;
report whether the list shrank. -/
def remove_account_from_tracker (tr : Tracker) (team email : String) : Tracker × Bool :=
  match dictFind tr.teams team with
  | none => (tr, false)
  | some l =>
    let l2 := l.filter (fun a => a.email ≠ email)
    ({ tr with teams := dictSet tr.teams team l2 }, decide (l2.length < l.length))

/-- utils.get_incomplete_accounts: records whose status is not crs_added,
projected to the email/status/password/role dict. -/
def get_incomplete_accounts (tr : Tracker) (team : String) : List AccountIn :=
  match dictFind tr.teams team with
  | none => []
  | some l =>
    (l.filter (fun a => a.status.getD "" ≠ "crs_added")).map
      (fun a => { email := a.email, status := a.status.getD "",
                  password := a.password.getD "", role := a.role.getD "member" })

/-- The in-memory tracker together with its persisted copy on disk. -/
structure Sys where
  tracker : Tracker
  disk : Tracker
deriving Repr, DecidableEq

/-- utils.save_team_tracker: stamp last_updated, write the whole tracker to
disk (the embedding assumes the write succeeds). -/
def save_team_tracker (s : Sys) (now : String) : Sys :=
  let t := { s.tracker with last_updated := some now }
  { tracker := t, disk := t }

/-! ## team_service.py: seat computation (C4) -/

/-- The stats dict returned by team_service.get_team_stats on success; each
field is read through .get with a default in check_available_seats. -/
structure TeamStats where
  seats_in_use : Option Int
  seats_entitled : Option Int
  pending_invites : Option Int
deriving Repr, DecidableEq

/-- team_service.check_available_seats: 0 when the stats fetch failed
(empty dict), otherwise total minus used minus pending, floored at 0. -/
def check_available_seats (stats : Option TeamStats) : Int :=
  match stats with
  | none => 0
  | some st =>
    let seats_in_use := st.seats_in_use.getD 0
    let seats_entitled := st.seats_entitled.getD 5
    let pending_invites := st.pending_invites.getD 0
    max 0 (seats_entitled - seats_in_use - pending_invites)

/-! ## Lemmas about the tracker add operations (C5) -/

/-- The account list a team maps to (empty when the team key is absent). -/
def teamAccounts (tr : Tracker) (team : String) : List Account :=
  (dictFind tr.teams team).getD []

/-! ## run.py process_accounts: event-level embedding (C1, C2)

One loop iteration of run.py process_accounts is embedded as the list of
tracker / blacklist / CSV operations it performs, in source order.  The
outcomes of the external calls (register_and_authorize,
login_and_authorize_with_otp, authorize_only, crs_add_account,
unified_create_email, invite_single_to_team) are supplied by an
environment record.  Executing the events over a state then yields the
tracker semantics. -/

inductive Ev where
  | setStatus (email status : String)
  | save
  | removeAccount (email : String)
  | addAccount (email pw status : String)
  | addBlacklist (domain : String)
  | csvRow (email pw status : String)
  | stage (name : String)
deriving Repr, DecidableEq

/-- The first component of the register_and_authorize result:
True, False, or the string domain_blacklisted. -/
inductive RegResult where
  | ok
  | fail
  | domainBlacklisted
deriving Repr, DecidableEq

/-- Outcomes of the external calls made while processing one account. -/
structure ProcEnv where
  reg : RegResult
  codex : Option String
  otpAuth : Bool
  crs : Option String
  preNewEmail : Option (String × String)
  preInviteOk : Bool
  regNewEmail : Option (String × String)
  regInviteOk : Bool
deriving Repr, DecidableEq

/-- run.py lines 335-372: the transitions performed after the
register/authorize stage, given whether registration succeeded. -/
def afterRegisterEvents (email pw : String) (regOk : Bool) (env : ProcEnv) :
    List Ev :=
  if regOk then
    [Ev.setStatus email "registered", Ev.save] ++
    (match env.codex with
     | some _ =>
       [Ev.setStatus email "authorized", Ev.save, Ev.stage "crs_add_account"] ++
       (match env.crs with
        | some _ => [Ev.setStatus email "crs_added", Ev.save, Ev.csvRow email pw "success"]
        | none => [Ev.setStatus email "partial", Ev.save, Ev.csvRow email pw "partial"])
     | none => [Ev.setStatus email "auth_failed", Ev.save, Ev.csvRow email pw "auth_failed"])
  else
    [Ev.setStatus email "register_failed", Ev.save, Ev.csvRow email pw "failed"]

/-- run.py lines 310-333: registration reported domain_blacklisted — add the
domain to the blacklist, remove the record, and (only if a fresh
non-blacklisted mailbox is created and invited) insert the replacement;
the iteration then continues to the next account (no CSV row). -/
def domainBlacklistEvents (email : String) (bl : List String) (env : ProcEnv) :
    List Ev :=
  let domain := get_domain_from_email email
  [Ev.addBlacklist domain, Ev.removeAccount email, Ev.save] ++
  (match env.regNewEmail with
   | some nep =>
     if is_email_blacklisted (blacklistAdd bl domain) nep.1 = false then
       if env.regInviteOk then [Ev.addAccount nep.1 nep.2 "invited", Ev.save]
       else []
     else []
   | none => [])

/-- run.py lines 283-372: the main pipeline of one account, after the
blacklist pre-check, with the current (possibly replaced) email/password. -/
def mainPipelineEvents (status email pw role : String) (bl : List String)
    (env : ProcEnv) : List Ev :=
  let isOwner := role = "owner" ∨ status = "team_owner"
  let needAuthOnly := status = "registered" ∨ status = "authorized" ∨
      status = "auth_failed" ∨ status = "partial"
  [Ev.setStatus email "processing", Ev.save] ++
  (if isOwner then
    Ev.stage "login_and_authorize_with_otp" :: afterRegisterEvents email pw env.otpAuth env
  else if needAuthOnly then
    Ev.stage "authorize_only" :: afterRegisterEvents email pw true env
  else
    Ev.stage "register_and_authorize" ::
    (match env.reg with
     | RegResult.domainBlacklisted => domainBlacklistEvents email bl env
     | RegResult.ok => afterRegisterEvents email pw true env
     | RegResult.fail => afterRegisterEvents email pw false env))

/-- run.py lines 228-391: one full iteration of the account loop, including
the blacklist pre-check (lines 238-268) which may swap in a replacement
mailbox before the pipeline runs. -/
def processAccountEvents (acc : AccountIn) (bl : List String) (env : ProcEnv) :
    List Ev :=
  if is_email_blacklisted bl acc.email then
    [Ev.removeAccount acc.email, Ev.save] ++
    (if acc.role ≠ "owner" then
      match env.preNewEmail with
      | some nep =>
        if is_email_blacklisted bl nep.1 = false then
          if env.preInviteOk then
            [Ev.addAccount nep.1 nep.2 "invited", Ev.save] ++
            mainPipelineEvents acc.status nep.1 nep.2 acc.role bl env
          else []
        else []
      | none => []
    else [])
  else
    mainPipelineEvents acc.status acc.email acc.password acc.role bl env

/-- The state acted on by the events: in-memory tracker, its on-disk copy,
the blacklist (memory and file), and the CSV audit rows. -/
structure PState where
  tracker : Tracker
  disk : Tracker
  blMem : List String
  blDisk : List String
  csv : List (String × String × String)
deriving Repr, DecidableEq

def execEv (team now : String) (s : PState) : Ev → PState
  | Ev.setStatus e st =>
    { s with tracker := update_account_status s.tracker team e st now }
  | Ev.save =>
    let s2 := save_team_tracker ⟨s.tracker, s.disk⟩ now
    { s with tracker := s2.tracker, disk := s2.disk }
  | Ev.removeAccount e =>
    { s with tracker := (remove_account_from_tracker s.tracker team e).1 }
  | Ev.addAccount e pw st =>
    { s with tracker := add_account_with_password s.tracker team e pw st now }
  | Ev.addBlacklist d =>
    let st2 := add_domain_to_blacklist ⟨s.blMem, s.blDisk⟩ d
    { s with blMem := st2.1.mem, blDisk := st2.1.disk }
  | Ev.csvRow e pw st => { s with csv := s.csv ++ [(e, pw, st)] }
  | Ev.stage _ => s

def execEvs (team now : String) (s : PState) : List Ev → PState
  | [] => s
  | e :: rest => execEvs team now (execEv team now s e) rest

/-! ## C1: every status transition is immediately followed by a save -/

/-- Checks that in an event list every setStatus is directly followed by a
save (write-through: the tracker is persisted before anything else runs). -/
def savesFollowSets : List Ev → Bool
  | [] => true
  | Ev.setStatus _ _ :: rest =>
    match rest with
    | Ev.save :: _ => savesFollowSets rest
    | _ => false
  | _ :: rest => savesFollowSets rest

/-! ## Bridge from the syntactic check to the tracker semantics -/

/-- Status of the first record with this email in this team. -/
def statusOf (tr : Tracker) (team email : String) : Option String :=
  match dictFind tr.teams team with
  | none => none
  | some l =>
    match l.find? (fun a => a.email == email) with
    | some a => a.status
    | none => none

/-- Whether a record with this email exists in this team. -/
def emailPresent (tr : Tracker) (team email : String) : Bool :=
  match dictFind tr.teams team with
  | none => false
  | some l => l.any (fun a => a.email == email)

/-! ## run.py process_single_team / run_single_team: resume planning (C3) -/

/-- Environment for one process_single_team invocation: the seat check
result, the mailboxes batch_create_emails returns, and which invitations
the invite call reports as successful. -/
structure TeamEnv where
  availableSeats : Int
  createdEmails : List (String × String)
  inviteSuccess : List String
deriving Repr, DecidableEq

/-- What process_single_team decides: the member records handed to
process_accounts in phase 3, the deferred owners returned to the caller,
the tracker after invite bookkeeping, the mailboxes newly created by this
invocation, and whether the team was skipped as complete. -/
structure TeamPlan where
  invited : List AccountIn
  owners : List Account
  tracker : Tracker
  createdNew : List (String × String)
  skipped : Bool
deriving Repr, DecidableEq

/-- run.py line 101: the tracker records of one team. -/
def teamAllAccounts (tr : Tracker) (team : String) : List Account :=
  (dictFind tr.teams team).getD []

/-- run.py line 102: owners that are not yet crs_added. -/
def teamOwnerAccounts (tr : Tracker) (team : String) : List Account :=
  (teamAllAccounts tr team).filter
    (fun a => a.role == some "owner" && a.status != some "crs_added")

/-- run.py line 103: non-owner records. -/
def teamMemberAccounts (tr : Tracker) (team : String) : List Account :=
  (teamAllAccounts tr team).filter (fun a => a.role != some "owner")

/-- run.py line 106: members already crs_added. -/
def teamCompletedCount (tr : Tracker) (team : String) : Nat :=
  ((teamMemberAccounts tr team).filter (fun a => a.status == some "crs_added")).length

/-- run.py line 130: member records whose status is not crs_added. -/
def incompleteMembers (tr : Tracker) (team : String) : List Account :=
  (teamMemberAccounts tr team).filter (fun a => a.status != some "crs_added")

/-- run.py line 111: the team is skipped when the member quota is reached,
every member is crs_added, and no owner is pending. -/
def teamSkip (apt : Nat) (tr : Tracker) (team : String) : Prop :=
  (teamMemberAccounts tr team).length ≥ apt ∧
  teamCompletedCount tr team = (teamMemberAccounts tr team).length ∧
  (teamOwnerAccounts tr team).length = 0

instance (apt : Nat) (tr : Tracker) (team : String) : Decidable (teamSkip apt tr team) := by
  unfold teamSkip
  infer_instance

/-- The projection run.py lines 140-145 applies to an incomplete member
record before handing it to process_accounts. -/
def incompleteProj (defaultPw : String) (a : Account) : AccountIn :=
  { email := a.email, password := a.password.getD defaultPw,
    status := a.status.getD "", role := a.role.getD "member" }

/-- The projection run.py lines 499-504 applies to a deferred owner record. -/
def ownerProj (defaultPw : String) (o : Account) : AccountIn :=
  { email := o.email, password := o.password.getD defaultPw,
    status := o.status.getD "team_owner", role := "owner" }

/-- run.py process_single_team (lines 93-203): selection of work for one
team.  Incomplete members are picked up as-is; otherwise, with free seats,
new mailboxes are created, invited, and recorded.  Owners are only
collected, never queued here.  (In the skip branch the source returns a bare
list instead of the usual pair; the plan marks it with skipped.) -/
def process_single_team_plan (apt : Nat) (defaultPw : String) (tr : Tracker)
    (team : String) (env : TeamEnv) (now : String) : TeamPlan :=
  if teamSkip apt tr team then
    { invited := [], owners := [], tracker := tr, createdNew := [], skipped := true }
  else if incompleteMembers tr team ≠ [] then
    { invited := (incompleteMembers tr team).map (incompleteProj defaultPw),
      owners := teamOwnerAccounts tr team, tracker := tr,
      createdNew := [], skipped := false }
  else if (teamMemberAccounts tr team).length ≥ apt then
    { invited := [], owners := teamOwnerAccounts tr team, tracker := tr,
      createdNew := [], skipped := false }
  else if 0 < env.availableSeats then
    let need : Int := min ((apt : Int) - ((teamMemberAccounts tr team).length : Int))
      env.availableSeats
    if 0 < need then
      if 0 < env.createdEmails.length then
        { invited := (env.createdEmails.filter
              (fun p => env.inviteSuccess.contains p.1)).map
              (fun p => { email := p.1, password := p.2,
                          status := "invited", role := "member" }),
          owners := teamOwnerAccounts tr team,
          tracker := env.createdEmails.foldl (fun t p =>
            if env.inviteSuccess.contains p.1 then
              add_account_with_password t team p.1 p.2 "invited" now
            else t) tr,
          createdNew := env.createdEmails, skipped := false }
      else
        { invited := [], owners := teamOwnerAccounts tr team, tracker := tr,
          createdNew := env.createdEmails, skipped := false }
    else
      { invited := [], owners := teamOwnerAccounts tr team, tracker := tr,
        createdNew := [], skipped := false }
  else
    { invited := [], owners := teamOwnerAccounts tr team, tracker := tr,
      createdNew := [], skipped := false }

/-- run.py run_single_team (lines 476-510): the member items of phase 3 are
processed first, the deferred owner items afterwards, each projected to the
process_accounts dict shape. -/
def run_single_team_order (apt : Nat) (defaultPw : String) (tr : Tracker)
    (team : String) (env : TeamEnv) (now : String) : List AccountIn :=
  (process_single_team_plan apt defaultPw tr team env now).invited ++
  (process_single_team_plan apt defaultPw tr team env now).owners.map
    (ownerProj defaultPw)

/-! ## browser_automation.py: verification-code retry loop (C6)

The loop at browser_automation.py lines 718-806 (signup path) and
1138-1211 (OTP authorization path) has the same retry skeleton: submit the
current code; when the page reports it incorrect and attempts remain, click
the resend control, fetch a fresh code (falling back to manual input), and
retry; with no resend control, retry with the unchanged code; on the last
attempt report failure; when no error is shown, proceed. -/

/-- Page and mailbox behaviour during the retry loop, per attempt index. -/
structure VerifyEnv where
  incorrectShown : Nat → Bool
  resendAvailable : Nat → Bool
  refetch : Nat → Option String
  manual : Nat → String

inductive VerifyOutcome where
  | proceed
  | failure
deriving Repr, DecidableEq

/-- The code-retry loop: fuel counts the remaining iterations of the
range(max_code_retries) loop, i is the attempt index; returns the outcome,
the codes submitted in order, and the number of resend clicks. -/
def codeRetryAux (env : VerifyEnv) (maxRetries : Nat) :
    Nat → Nat → String → VerifyOutcome × List String × Nat
  | 0, _, _ => (VerifyOutcome.proceed, [], 0)
  | fuel + 1, i, code =>
    if env.incorrectShown i then
      if i < maxRetries - 1 then
        if env.resendAvailable i then
          let fetched := match env.refetch i with
            | some c => c
            | none => env.manual i
          let r := codeRetryAux env maxRetries fuel (i + 1) fetched
          (r.1, code :: r.2.1, r.2.2 + 1)
        else
          let r := codeRetryAux env maxRetries fuel (i + 1) code
          (r.1, code :: r.2.1, r.2.2)
      else
        (VerifyOutcome.failure, [code], 0)
    else
      (VerifyOutcome.proceed, [code], 0)

/-- The loop as instantiated in the source: max_code_retries = 3. -/
def codeRetryLoop (env : VerifyEnv) (code0 : String) :
    VerifyOutcome × List String × Nat :=
  codeRetryAux env 3 3 0 code0

/-! ## email_service.py: verification-code extraction and polling (C7)

The regex patterns of the source are modelled over character lists:
literal text is matched case-insensitively (re.IGNORECASE), the class
between the literal and the digits is skipped greedily, and a capture is
six consecutive digits.  Since no separator character is a digit, this
greedy scan computes exactly what re.search computes on these patterns. -/

def isWs (c : Char) : Bool := c.isWhitespace

def isColonWs (c : Char) : Bool := c = ':' || c.isWhitespace

def isCnColonWs (c : Char) : Bool := c = '：' || c = ':' || c.isWhitespace

/-- Six consecutive digits at the head of the text, if present. -/
def take6Digits (cs : List Char) : Option String :=
  let six := cs.take 6
  if six.length = 6 && six.all (fun c => c.isDigit) then some (String.mk six)
  else none

def skipWhile (p : Char → Bool) : List Char → List Char
  | [] => []
  | c :: cs => if p c then skipWhile p cs else c :: cs

/-- Case-insensitive literal match; returns the remaining text. -/
def matchLitCI : List Char → List Char → Option (List Char)
  | [], rest => some rest
  | _ :: _, [] => none
  | l :: ls, c :: cs => if l.toLower = c.toLower then matchLitCI ls cs else none

/-- One pattern applied at the current position: literal, then separator
class, then six digits. -/
def matchPrefixCode (lit : List Char) (sep : Char → Bool) (cs : List Char) :
    Option String :=
  match matchLitCI lit cs with
  | none => none
  | some rest => take6Digits (skipWhile sep rest)

/-- re.search: the leftmost position where the pattern matches. -/
def searchCode (lit : List Char) (sep : Char → Bool) : List Char → Option String
  | [] => none
  | c :: cs =>
    match matchPrefixCode lit sep (c :: cs) with
    | some r => some r
    | none => searchCode lit sep cs

/-- email_service.GPTMailService._extract_code: the ordered pattern list —
代码为, code is, verification code, 验证码, then the bare six-digit
fallback; empty text yields nothing. -/
def extract_code (text : String) : Option String :=
  if text = "" then none
  else
    match searchCode "代码为".data isWs text.data with
    | some c => some c
    | none =>
      match searchCode "code is".data isWs text.data with
      | some c => some c
      | none =>
        match searchCode "verification code".data isColonWs text.data with
        | some c => some c
        | none =>
          match searchCode "验证码".data isCnColonWs text.data with
          | some c => some c
          | none => searchCode [] (fun _ => false) text.data

/-- A fetched mail message (subject, content, creation time). -/
structure MailMsg where
  subject : String
  content : String
  created_at : String
deriving Repr, DecidableEq

/-- GPTMail loop body (email_service.py lines 224-243): subject first, then
content, of the most recent message. -/
def extractFromMsg (m : MailMsg) : Option (String × String) :=
  match extract_code m.subject with
  | some c => some (c, m.created_at)
  | none =>
    match extract_code m.content with
    | some c => some (c, m.created_at)
    | none => none

/-- email_service.GPTMailService.get_verification_code: poll up to
maxRetries times; whenever the returned inbox is non-empty, try the head
(most recent) message; a fetch error is an empty list, as in the source. -/
def gptGetCodeAux (fetch : Nat → List MailMsg) :
    Nat → Nat → Option (String × String)
  | 0, _ => none
  | fuel + 1, i =>
    match (fetch i).head? with
    | none => gptGetCodeAux fetch fuel (i + 1)
    | some m =>
      match extractFromMsg m with
      | some r => some r
      | none => gptGetCodeAux fetch fuel (i + 1)

def gptmail_get_verification_code (fetch : Nat → List MailMsg)
    (maxRetries : Nat) : Option (String × String) :=
  gptGetCodeAux fetch maxRetries 0

/-- The subject-only pattern list of the Cloud Mail variant
(email_service.py lines 382-406): 代码为, code is, then the bare
six-digit fallback. -/
def cloud_extract_subject (subject : String) : Option String :=
  match searchCode "代码为".data isWs subject.data with
  | some c => some c
  | none =>
    match searchCode "code is".data isWs subject.data with
    | some c => some c
    | none => searchCode [] (fun _ => false) subject.data

/-- email_service.get_verification_code (Cloud Mail): poll; on an HTTP-200
response with a non-empty list try the subject of the most recent message;
none models a failed response. -/
def cloudGetCodeAux (fetch : Nat → Option (List MailMsg)) :
    Nat → Nat → Option (String × String)
  | 0, _ => none
  | fuel + 1, i =>
    match ((fetch i).getD []).head? with
    | none => cloudGetCodeAux fetch fuel (i + 1)
    | some m =>
      match cloud_extract_subject m.subject with
      | some c => some (c, m.created_at)
      | none => cloudGetCodeAux fetch fuel (i + 1)

def cloudmail_get_verification_code (fetch : Nat → Option (List MailMsg))
    (maxRetries : Nat) : Option (String × String) :=
  cloudGetCodeAux fetch maxRetries 0

/-- Declarative form of the polling loop: the first poll round whose head
message yields a code. -/
def pollFirstHit (fetch : Nat → List MailMsg) (n : Nat) :
    Option (String × String) :=
  (List.range n).findSome? (fun i => (fetch i).head?.bind extractFromMsg)

/-- Declarative form of the Cloud Mail polling loop. -/
def cloudPollFirstHit (fetch : Nat → Option (List MailMsg)) (n : Nat) :
    Option (String × String) :=
  (List.range n).findSome? (fun i => ((fetch i).getD []).head?.bind
    (fun m => (cloud_extract_subject m.subject).map (fun c => (c, m.created_at))))

/-- Modelled from the spec: the spec qualifies the most recent message by a
captured baseline count — extraction considers the inbox only when it has
grown beyond the baseline captured before the code was requested.  No such
baseline exists in the source (GPTMailService.get_verification_code and the
Cloud Mail variant both use the head of whatever list is returned); this
definition follows the spec words for comparison. -/
def specGetCodeAux (baseline : Nat) (fetch : Nat → List MailMsg) :
    Nat → Nat → Option (String × String)
  | 0, _ => none
  | fuel + 1, i =>
    if baseline < (fetch i).length then
      match (fetch i).head? with
      | none => specGetCodeAux baseline fetch fuel (i + 1)
      | some m =>
        match extractFromMsg m with
        | some r => some r
        | none => specGetCodeAux baseline fetch fuel (i + 1)
    else specGetCodeAux baseline fetch fuel (i + 1)

def spec_get_verification_code (baseline : Nat) (fetch : Nat → List MailMsg)
    (maxRetries : Nat) : Option (String × String) :=
  specGetCodeAux baseline fetch maxRetries 0

/-! ## utils.load_team_tracker over a modelled filesystem (C9) -/

inductive Json where
  | null
  | bool (b : Bool)
  | num (n : Int)
  | str (s : String)
  | arr (items : List Json)
  | obj (fields : List (String × Json))

/-- The tracker file as the loader can encounter it: absent, unreadable
(open raises), unparseable (json.load raises), or parsed JSON. -/
inductive FsTracker where
  | absent
  | unreadable
  | invalidJson
  | valid (j : Json)

/-- os.path.exists(TEAM_TRACKER_FILE). -/
def fsExists : FsTracker → Bool
  | FsTracker.absent => false
  | _ => true

/-- The open-and-json.load attempt inside the try block of
load_team_tracker; error is a raised exception. -/
def readAndParse : FsTracker → Except String Json
  | FsTracker.absent => Except.error "file not found"
  | FsTracker.unreadable => Except.error "open failed"
  | FsTracker.invalidJson => Except.error "json decode error"
  | FsTracker.valid j => Except.ok j

/-- The default returned on any failure: teams empty, last_updated null. -/
def emptyTrackerJson : Json :=
  Json.obj [("teams", Json.obj []), ("last_updated", Json.null)]

/-- utils.load_team_tracker: if the file exists, try to parse it, catching
every exception with a logged warning; otherwise, and on any failure,
return the default tracker. -/
def load_team_tracker (fs : FsTracker) : Json :=
  if fsExists fs then
    match readAndParse fs with
    | Except.ok j => j
    | Except.error _ => emptyTrackerJson
  else emptyTrackerJson

/-- A JSON account object: an object with a string email field
(spec section 6 AccountRecord). -/
def isAccountJson : Json → Bool
  | Json.obj fields =>
    match dictFind fields "email" with
    | some (Json.str _) => true
    | _ => false
  | _ => false

/-- Structural validity of a tracker JSON value (spec section 6): an object
whose teams field maps team names to arrays of account objects. -/
def isValidTracker : Json → Bool
  | Json.obj fields =>
    match dictFind fields "teams" with
    | some (Json.obj teams) =>
      teams.all (fun kv =>
        match kv.2 with
        | Json.arr accs => accs.all isAccountJson
        | _ => false)
    | _ => false
  | _ => false

/-! ## run.py signal handling and cooperative shutdown (C8)

process_accounts checks the shutdown flag at the top of each account
iteration (run.py lines 229-231); an account is a sequence of pipeline
stages, each stage a sequence of atomic interactions.  _signal_handler
(lines 57-73) on the first signal sets the flag, saves the tracker, and
exits the process immediately via sys.exit(0); the atexit hook (line 79)
saves again on any exit.  A signal can be delivered between any two atomic
steps of the interpreter. -/

inductive RStep where
  | checkFlag
  | micro (account : Nat) (stage tag : String)
  | flushTracker
  | exitProcess (rc : Nat)
deriving Repr, DecidableEq

/-- The steps of one account: the boundary flag check, then the
micro-steps of each pipeline stage in order. -/
def accountSteps (idx : Nat) (stages : List (String × List String)) : List RStep :=
  RStep.checkFlag ::
    (stages.map (fun st => st.2.map (fun t => RStep.micro idx st.1 t))).flatten

/-- The flattened step sequence of the account loop. -/
def loopSteps (accounts : List (List (String × List String))) : List RStep :=
  (accounts.enum.map (fun p => accountSteps p.1 p.2)).flatten

/-- run.py _signal_handler on a first signal: _save_state flushes the
tracker, sys.exit(0) runs the atexit flush and terminates. -/
def firstSignalHandlerSteps : List RStep :=
  [RStep.flushTracker, RStep.flushTracker, RStep.exitProcess 0]

/-- A run interrupted by the first SIGINT after k atomic steps: the handler
runs at that point and the process exits — no step after position k
executes. -/
def interruptedRun (accounts : List (List (String × List String))) (k : Nat) :
    List RStep :=
  (loopSteps accounts).take k ++ firstSignalHandlerSteps

/-- The lengths of the flattened segments (boundary checks and stages). -/
def segmentLens (accounts : List (List (String × List String))) : List Nat :=
  (accounts.map (fun stages => 1 :: stages.map (fun st => st.2.length))).flatten

/-- The smallest segment boundary at or after position k. -/
def ceilBoundary : List Nat → Nat → Nat
  | [], k => k
  | n :: rest, k =>
    if k = 0 then 0
    else if k ≤ n then n
    else n + ceilBoundary rest (k - n)

/-- Modelled from the spec: the claimed interruption semantics — the
in-flight account finishes its current pipeline stage before the run exits
with a flush.  The source has no such completion (the handler exits
immediately); this definition follows the claim words for comparison. -/
def specInterruptedRun (accounts : List (List (String × List String)))
    (k : Nat) : List RStep :=
  (loopSteps accounts).take (ceilBoundary (segmentLens accounts) k) ++
    firstSignalHandlerSteps

/-- The account loop with the shutdown flag set before the boundary check
of account fb: the break at run.py line 231 stops the loop there. -/
def coopAux : List (List (String × List String)) → Nat → Nat → List RStep
  | [], _, _ => []
  | a :: rest, i, fb =>
    if fb ≤ i then []
    else accountSteps i a ++ coopAux rest (i + 1) fb

/-- A cooperative run that observes the flag at the boundary of account fb
and then exits with the atexit flush. -/
def cooperativeRun (accounts : List (List (String × List String)))
    (fb : Nat) : List RStep :=
  coopAux accounts 0 fb ++ [RStep.flushTracker, RStep.exitProcess 0]

/-! ## Theorems -/

/-! ## Theorems for C4 -/

/-- C4: check_available_seats (get_available_seats) returns
max(0, entitled - in_use - pending) on every successful stats fetch, is never
negative on any input (including a failed fetch), and on the two concrete
examples entitled=5/in_use=5/pending=0 and entitled=5/in_use=2/pending=1 it
returns 0 and 2 respectively. -/
theorem C4_seat_floor :
    (∀ st : TeamStats,
      check_available_seats (some st) =
        max 0 (st.seats_entitled.getD 5 - st.seats_in_use.getD 0 -
               st.pending_invites.getD 0)) ∧
    (∀ o : Option TeamStats, 0 ≤ check_available_seats o) ∧
    check_available_seats (some ⟨some 5, some 5, some 0⟩) = 0 ∧
    check_available_seats (some ⟨some 2, some 5, some 1⟩) = 2 := by
  refine ⟨fun st => rfl, fun o => ?_, by decide, by decide⟩
  cases o with
  | none => simp [check_available_seats]
  | some st => simp [check_available_seats]

/-! ## Theorems for C10 -/

/-- C10: add_domain_to_blacklist returns True exactly when the domain is
non-empty and not yet present; in that case both the in-memory set and the
persisted file grow by exactly that one domain; otherwise memory and disk
are left untouched; consequently the set stays duplicate-free and never
acquires the empty string. -/
theorem C10_blacklist_add (st : BlacklistState) (domain : String) :
    ((add_domain_to_blacklist st domain).2 = true ↔
      domain ≠ "" ∧ domain ∉ st.mem) ∧
    ((add_domain_to_blacklist st domain).2 = true →
      (add_domain_to_blacklist st domain).1.mem = st.mem ++ [domain] ∧
      (add_domain_to_blacklist st domain).1.disk = st.mem ++ [domain] ∧
      (add_domain_to_blacklist st domain).1.mem.length = st.mem.length + 1) ∧
    ((add_domain_to_blacklist st domain).2 = false →
      (add_domain_to_blacklist st domain).1 = st) ∧
    (st.mem.Nodup → (add_domain_to_blacklist st domain).1.mem.Nodup) ∧
    ("" ∉ st.mem → "" ∉ (add_domain_to_blacklist st domain).1.mem) := by
  refine ⟨?_, ?_, ?_, ?_, ?_⟩
  · by_cases h : domain ≠ "" ∧ domain ∉ st.mem <;>
      simp [add_domain_to_blacklist, h]
  · intro ht
    by_cases h : domain ≠ "" ∧ domain ∉ st.mem
    · refine ⟨?_, ?_, ?_⟩ <;> simp [add_domain_to_blacklist, h]
    · simp [add_domain_to_blacklist, h] at ht
  · intro hf
    by_cases h : domain ≠ "" ∧ domain ∉ st.mem
    · simp [add_domain_to_blacklist, h] at hf
    · simp [add_domain_to_blacklist, h]
  · intro hnd
    by_cases h : domain ≠ "" ∧ domain ∉ st.mem
    · simp only [add_domain_to_blacklist, if_pos h]
      simpa [List.nodup_append] using ⟨hnd, fun hx => h.2 hx⟩
    · simpa [add_domain_to_blacklist, h] using hnd
  · intro hne
    by_cases h : domain ≠ "" ∧ domain ∉ st.mem
    · simp only [add_domain_to_blacklist, if_pos h]
      intro hmem
      rcases List.mem_append.mp hmem with h1 | h1
      · exact hne h1
      · simp only [List.mem_singleton] at h1
        exact h.1 h1.symm
    · simpa [add_domain_to_blacklist, h] using hne

/-- Witness for C10 at a concrete state and domain. -/
theorem C10_blacklist_add_witness :
    (add_domain_to_blacklist ⟨["old.com"], ["old.com"]⟩ "bad.com").2 = true ∧
    (add_domain_to_blacklist ⟨["old.com"], ["old.com"]⟩ "bad.com").1.mem
      = ["old.com", "bad.com"] := by
  have h := C10_blacklist_add ⟨["old.com"], ["old.com"]⟩ "bad.com"
  exact ⟨by decide, (h.2.1 (by decide)).1⟩

theorem dictFind_dictSet_self {α : Type} (m : List (String × α)) (k : String) (v : α) :
    dictFind (dictSet m k v) k = some v := by
  induction m with
  | nil => simp [dictSet, dictFind]
  | cons p rest ih =>
    by_cases h : p.1 = k <;> simp [dictSet, dictFind, h, ih]

theorem updateOrAppendPw_map_email_of_mem (email pw status now : String)
    (l : List Account) (h : email ∈ l.map Account.email) :
    (updateOrAppendPw email pw status now l).map Account.email
      = l.map Account.email := by
  induction l with
  | nil => simp at h
  | cons a rest ih =>
    by_cases he : a.email = email
    · simp [updateOrAppendPw, he]
    · have hr : email ∈ rest.map Account.email := by
        rcases List.mem_map.mp h with ⟨b, hb, hbe⟩
        rcases List.mem_cons.mp hb with h1 | h1
        · exact absurd (h1 ▸ hbe) he
        · exact List.mem_map.mpr ⟨b, h1, hbe⟩
      simp [updateOrAppendPw, he, ih hr]

theorem updateOrAppendPw_map_email_of_not_mem (email pw status now : String)
    (l : List Account) (h : email ∉ l.map Account.email) :
    (updateOrAppendPw email pw status now l).map Account.email
      = l.map Account.email ++ [email] := by
  induction l with
  | nil => simp [updateOrAppendPw, freshAccountPw]
  | cons a rest ih =>
    have he : a.email ≠ email := by
      intro hcontra
      exact h (by simp [hcontra])
    have hr : email ∉ rest.map Account.email := by
      intro hcontra
      exact h (by simp [hcontra])
    simp [updateOrAppendPw, he, ih hr]

theorem updateOrAppendBare_map_email_of_mem (email status now : String)
    (l : List Account) (h : email ∈ l.map Account.email) :
    (updateOrAppendBare email status now l).map Account.email
      = l.map Account.email := by
  induction l with
  | nil => simp at h
  | cons a rest ih =>
    by_cases he : a.email = email
    · simp [updateOrAppendBare, he]
    · have hr : email ∈ rest.map Account.email := by
        rcases List.mem_map.mp h with ⟨b, hb, hbe⟩
        rcases List.mem_cons.mp hb with h1 | h1
        · exact absurd (h1 ▸ hbe) he
        · exact List.mem_map.mpr ⟨b, h1, hbe⟩
      simp [updateOrAppendBare, he, ih hr]

theorem updateOrAppendBare_map_email_of_not_mem (email status now : String)
    (l : List Account) (h : email ∉ l.map Account.email) :
    (updateOrAppendBare email status now l).map Account.email
      = l.map Account.email ++ [email] := by
  induction l with
  | nil => simp [updateOrAppendBare, freshAccountBare]
  | cons a rest ih =>
    have he : a.email ≠ email := by
      intro hcontra
      exact h (by simp [hcontra])
    have hr : email ∉ rest.map Account.email := by
      intro hcontra
      exact h (by simp [hcontra])
    simp [updateOrAppendBare, he, ih hr]

theorem teamAccounts_add_account_with_password (tr : Tracker)
    (team email pw status now : String) :
    teamAccounts (add_account_with_password tr team email pw status now) team
      = updateOrAppendPw email pw status now (teamAccounts tr team) := by
  simp [teamAccounts, add_account_with_password, dictFind_dictSet_self]

theorem teamAccounts_add_account_to_tracker (tr : Tracker)
    (team email status now : String) :
    teamAccounts (add_account_to_tracker tr team email status now) team
      = updateOrAppendBare email status now (teamAccounts tr team) := by
  simp [teamAccounts, add_account_to_tracker, dictFind_dictSet_self]

/-! ## Theorems for C5 -/

/-- C5: adding an account whose email already exists in a team (via either
add_account_to_tracker or add_account_with_password) leaves the team email
list unchanged (in-place update, no second record appended), and both
operations preserve duplicate-freeness of the email list, so within a team
the email field stays unique across re-runs. -/
theorem C5_email_uniqueness (tr : Tracker) (team email pw status now : String) :
    (email ∈ (teamAccounts tr team).map Account.email →
      (teamAccounts (add_account_with_password tr team email pw status now) team).map
          Account.email = (teamAccounts tr team).map Account.email ∧
      (teamAccounts (add_account_to_tracker tr team email status now) team).map
          Account.email = (teamAccounts tr team).map Account.email ∧
      (teamAccounts (add_account_with_password tr team email pw status now) team).length
          = (teamAccounts tr team).length) ∧
    (((teamAccounts tr team).map Account.email).Nodup →
      ((teamAccounts (add_account_with_password tr team email pw status now) team).map
          Account.email).Nodup ∧
      ((teamAccounts (add_account_to_tracker tr team email status now) team).map
          Account.email).Nodup) := by
  constructor
  · intro hmem
    refine ⟨?_, ?_, ?_⟩
    · rw [teamAccounts_add_account_with_password]
      exact updateOrAppendPw_map_email_of_mem email pw status now _ hmem
    · rw [teamAccounts_add_account_to_tracker]
      exact updateOrAppendBare_map_email_of_mem email status now _ hmem
    · have h := updateOrAppendPw_map_email_of_mem email pw status now _ hmem
      have := congrArg List.length h
      simpa [teamAccounts_add_account_with_password] using this
  · intro hnd
    constructor
    · rw [teamAccounts_add_account_with_password]
      by_cases hmem : email ∈ (teamAccounts tr team).map Account.email
      · rw [updateOrAppendPw_map_email_of_mem email pw status now _ hmem]
        exact hnd
      · rw [updateOrAppendPw_map_email_of_not_mem email pw status now _ hmem]
        refine List.Nodup.append hnd (List.nodup_singleton email) ?_
        intro a ha hb
        rw [List.mem_singleton] at hb
        subst hb
        exact hmem ha
    · rw [teamAccounts_add_account_to_tracker]
      by_cases hmem : email ∈ (teamAccounts tr team).map Account.email
      · rw [updateOrAppendBare_map_email_of_mem email status now _ hmem]
        exact hnd
      · rw [updateOrAppendBare_map_email_of_not_mem email status now _ hmem]
        refine List.Nodup.append hnd (List.nodup_singleton email) ?_
        intro a ha hb
        rw [List.mem_singleton] at hb
        subst hb
        exact hmem ha

/-- Witness for C5: a team that already holds a@x.com keeps a single record
for it after both add operations. -/
theorem C5_email_uniqueness_witness :
    let tr : Tracker :=
      ⟨[("t1", [freshAccountPw "a@x.com" "pw0" "invited" "d0"])], none⟩
    "a@x.com" ∈ (teamAccounts tr "t1").map Account.email ∧
    (teamAccounts (add_account_with_password tr "t1" "a@x.com" "pw1" "registered" "d1")
        "t1").map Account.email = (teamAccounts tr "t1").map Account.email := by
  intro tr
  exact ⟨by decide, ((C5_email_uniqueness tr "t1" "a@x.com" "pw1" "registered" "d1").1
    (by decide)).1⟩

theorem afterRegisterEvents_sfs (email pw : String) (regOk : Bool) (env : ProcEnv) :
    savesFollowSets (afterRegisterEvents email pw regOk env) = true := by
  cases regOk <;> cases hc : env.codex <;> cases hr : env.crs <;>
    simp [afterRegisterEvents, savesFollowSets, hc, hr]

theorem domainBlacklistEvents_sfs (email : String) (bl : List String) (env : ProcEnv) :
    savesFollowSets (domainBlacklistEvents email bl env) = true := by
  cases hn : env.regNewEmail with
  | none => simp [domainBlacklistEvents, savesFollowSets, hn]
  | some nep =>
    by_cases h1 : is_email_blacklisted (blacklistAdd bl (get_domain_from_email email)) nep.1 = false <;>
      cases hi : env.regInviteOk <;>
        simp [domainBlacklistEvents, savesFollowSets, hn, h1, hi]

theorem mainPipelineEvents_sfs (status email pw role : String) (bl : List String)
    (env : ProcEnv) :
    savesFollowSets (mainPipelineEvents status email pw role bl env) = true := by
  by_cases h1 : role = "owner" ∨ status = "team_owner"
  · cases ho : env.otpAuth <;> cases hc : env.codex <;> cases hcr : env.crs <;>
      simp [mainPipelineEvents, afterRegisterEvents, h1, ho, hc, hcr, savesFollowSets]
  · by_cases h2 : status = "registered" ∨ status = "authorized" ∨
        status = "auth_failed" ∨ status = "partial"
    · cases hc : env.codex <;> cases hcr : env.crs <;>
        simp [mainPipelineEvents, afterRegisterEvents, h1, h2, hc, hcr, savesFollowSets]
    · cases hr : env.reg
      · cases hc : env.codex <;> cases hcr : env.crs <;>
          simp [mainPipelineEvents, afterRegisterEvents, h1, h2, hr, hc, hcr,
            savesFollowSets]
      · simp [mainPipelineEvents, afterRegisterEvents, h1, h2, hr, savesFollowSets]
      · cases hn : env.regNewEmail with
        | none =>
          simp [mainPipelineEvents, domainBlacklistEvents, h1, h2, hr, hn,
            savesFollowSets]
        | some nep =>
          by_cases h3 : is_email_blacklisted
              (blacklistAdd bl (get_domain_from_email email)) nep.1 = false <;>
            cases hi : env.regInviteOk <;>
              simp [mainPipelineEvents, domainBlacklistEvents, h1, h2, hr, hn, h3, hi,
                savesFollowSets]

theorem processAccountEvents_sfs (acc : AccountIn) (bl : List String) (env : ProcEnv) :
    savesFollowSets (processAccountEvents acc bl env) = true := by
  by_cases h0 : is_email_blacklisted bl acc.email = true
  · by_cases h1 : acc.role ≠ "owner"
    · cases hn : env.preNewEmail with
      | none => simp [processAccountEvents, savesFollowSets, h0, h1, hn]
      | some nep =>
        by_cases h2 : is_email_blacklisted bl nep.1 = false
        · cases hi : env.preInviteOk
          · simp [processAccountEvents, savesFollowSets, h0, h1, hn, h2, hi]
          · have hstep : processAccountEvents acc bl env
                = Ev.removeAccount acc.email :: Ev.save ::
                  Ev.addAccount nep.1 nep.2 "invited" :: Ev.save ::
                  mainPipelineEvents acc.status nep.1 nep.2 acc.role bl env := by
              simp [processAccountEvents, h0, h1, hn, h2, hi]
            rw [hstep]
            show savesFollowSets
              (mainPipelineEvents acc.status nep.1 nep.2 acc.role bl env) = true
            exact mainPipelineEvents_sfs acc.status nep.1 nep.2 acc.role bl env
        · simp [processAccountEvents, savesFollowSets, h0, h1, hn, h2]
    · simp [processAccountEvents, savesFollowSets, h0, h1]
  · have hstep : processAccountEvents acc bl env
        = mainPipelineEvents acc.status acc.email acc.password acc.role bl env := by
      simp [processAccountEvents, h0]
    rw [hstep]
    exact mainPipelineEvents_sfs acc.status acc.email acc.password acc.role bl env

theorem setFirstStatus_find (email status now : String) (l : List Account)
    (h : l.any (fun a => a.email == email) = true) :
    ∃ a, (setFirstStatus email status now l).find? (fun a => a.email == email) = some a ∧
      a.status = some status := by
  induction l with
  | nil => simp at h
  | cons a rest ih =>
    by_cases he : a.email = email
    · refine ⟨{ a with status := some status, updated_at := now }, ?_, rfl⟩
      simp [setFirstStatus, he, List.find?]
    · have hr : rest.any (fun a => a.email == email) = true := by
        simpa [List.any_cons, he] using h
      rcases ih hr with ⟨b, hb, hbs⟩
      refine ⟨b, ?_, hbs⟩
      simp [setFirstStatus, he, List.find?, hb]

theorem setFirstStatus_any (email status now : String) (l : List Account) :
    (setFirstStatus email status now l).any (fun a => a.email == email)
      = l.any (fun a => a.email == email) := by
  induction l with
  | nil => simp [setFirstStatus]
  | cons a rest ih =>
    by_cases he : a.email = email <;> simp [setFirstStatus, he, List.any_cons, ih]

theorem update_account_status_emailPresent (tr : Tracker) (team email status now : String) :
    emailPresent (update_account_status tr team email status now) team email
      = emailPresent tr team email := by
  unfold update_account_status
  cases hf : dictFind tr.teams team with
  | none => rfl
  | some l =>
    simp [emailPresent, hf, dictFind_dictSet_self, setFirstStatus_any]

theorem update_account_status_statusOf (tr : Tracker) (team email status now : String)
    (h : emailPresent tr team email = true) :
    statusOf (update_account_status tr team email status now) team email
      = some status := by
  unfold update_account_status
  cases hf : dictFind tr.teams team with
  | none => simp [emailPresent, hf] at h
  | some l =>
    have hl : l.any (fun a => a.email == email) = true := by
      simpa [emailPresent, hf] using h
    rcases setFirstStatus_find email status now l hl with ⟨a, ha, has⟩
    simp [statusOf, dictFind_dictSet_self, ha, has]

theorem statusOf_last_updated (tr : Tracker) (team email : String) (d : Option String) :
    statusOf { tr with last_updated := d } team email = statusOf tr team email := rfl

theorem savesFollowSets_tail (x : Ev) (rest : List Ev)
    (h : savesFollowSets (x :: rest) = true) : savesFollowSets rest = true := by
  cases x
  case setStatus e st =>
    cases rest with
    | nil => simp [savesFollowSets] at h
    | cons y rest2 =>
      cases y <;> first
        | exact h
        | simp [savesFollowSets] at h
  all_goals simpa [savesFollowSets] using h

/-- Any event list passing the write-through check yields, right after each
setStatus event and its save, a state whose disk copy equals the in-memory
tracker and whose persisted record carries the new status. -/
theorem exec_write_through (team now : String) :
    ∀ (evs : List Ev), savesFollowSets evs = true →
    ∀ (i : Nat) (e st : String), evs.get? i = some (Ev.setStatus e st) →
    ∀ (s0 : PState),
      (execEvs team now s0 (evs.take (i + 2))).disk
        = (execEvs team now s0 (evs.take (i + 2))).tracker ∧
      (emailPresent (execEvs team now s0 (evs.take (i + 2))).tracker team e = true →
        statusOf (execEvs team now s0 (evs.take (i + 2))).tracker team e = some st) := by
  intro evs
  induction evs with
  | nil => intro _ i e st hget; simp at hget
  | cons ev rest ih =>
    intro hsfs i e st hget s0
    cases i with
    | zero =>
      have hev : ev = Ev.setStatus e st := by simpa using hget
      subst hev
      have hrest : ∃ rest2, rest = Ev.save :: rest2 := by
        cases rest with
        | nil => simp [savesFollowSets] at hsfs
        | cons y rest2 =>
          cases y <;> simp [savesFollowSets] at hsfs
          · exact ⟨rest2, rfl⟩
      rcases hrest with ⟨rest2, hr⟩
      subst hr
      constructor
      · simp [execEvs, execEv, save_team_tracker]
      · intro hpres
        have h1 : emailPresent (update_account_status s0.tracker team e st now) team e = true := by
          simpa [execEvs, execEv, save_team_tracker, emailPresent] using hpres
        have h2 : emailPresent s0.tracker team e = true := by
          rwa [update_account_status_emailPresent] at h1
        have h3 := update_account_status_statusOf s0.tracker team e st now h2
        simpa [execEvs, execEv, save_team_tracker, statusOf] using h3
    | succ j =>
      have hget2 : rest.get? j = some (Ev.setStatus e st) := by simpa using hget
      have hsfs2 := savesFollowSets_tail ev rest hsfs
      have := ih hsfs2 j e st hget2 (execEv team now s0 ev)
      simpa [execEvs, List.take_succ_cons] using this

/-- C1: in every iteration of the account loop, each status transition
(to processing, registered, authorized, crs_added, partial, auth_failed or
register_failed) is immediately followed by a tracker save, and right after
any transition the persisted tracker equals the in-memory one and carries
the new status for that account. -/
theorem C1_write_through_durability (acc : AccountIn) (bl : List String)
    (env : ProcEnv) (team now : String) (s0 : PState) (i : Nat) (e st : String)
    (hev : (processAccountEvents acc bl env).get? i = some (Ev.setStatus e st)) :
    savesFollowSets (processAccountEvents acc bl env) = true ∧
    (execEvs team now s0 ((processAccountEvents acc bl env).take (i + 2))).disk
      = (execEvs team now s0 ((processAccountEvents acc bl env).take (i + 2))).tracker ∧
    (emailPresent (execEvs team now s0 ((processAccountEvents acc bl env).take (i + 2))).tracker
        team e = true →
      statusOf (execEvs team now s0 ((processAccountEvents acc bl env).take (i + 2))).tracker
        team e = some st) := by
  refine ⟨processAccountEvents_sfs acc bl env, ?_⟩
  exact exec_write_through team now (processAccountEvents acc bl env)
    (processAccountEvents_sfs acc bl env) i e st hev s0

/-- Witness for C1 at a concrete account and an all-success environment:
right after the registered transition and its save, the persisted status is
registered. -/
theorem C1_write_through_durability_witness :
    statusOf (execEvs "t1" "d1"
        ⟨⟨[("t1", [freshAccountPw "a@x.com" "pw" "invited" "d0"])], none⟩,
         ⟨[("t1", [freshAccountPw "a@x.com" "pw" "invited" "d0"])], none⟩,
         [], [], []⟩
        ((processAccountEvents ⟨"a@x.com", "pw", "invited", "member"⟩ []
            ⟨RegResult.ok, some "tok", false, some "id7", none, false, none, false⟩).take
          (3 + 2))).tracker "t1" "a@x.com" = some "registered" :=
  (C1_write_through_durability ⟨"a@x.com", "pw", "invited", "member"⟩ []
      ⟨RegResult.ok, some "tok", false, some "id7", none, false, none, false⟩
      "t1" "d1"
      ⟨⟨[("t1", [freshAccountPw "a@x.com" "pw" "invited" "d0"])], none⟩,
       ⟨[("t1", [freshAccountPw "a@x.com" "pw" "invited" "d0"])], none⟩, [], [], []⟩
      3 "a@x.com" "registered" (by decide)).2.2 (by decide)

/-! ## Lemmas for C2 -/

theorem setFirstStatus_map_email (email status now : String) (l : List Account) :
    (setFirstStatus email status now l).map Account.email = l.map Account.email := by
  induction l with
  | nil => simp [setFirstStatus]
  | cons a rest ih =>
    by_cases he : a.email = email <;> simp [setFirstStatus, he, ih]

theorem filter_setFirstStatus (email status now : String) (l : List Account) :
    (setFirstStatus email status now l).filter (fun a => a.email ≠ email)
      = l.filter (fun a => a.email ≠ email) := by
  induction l with
  | nil => simp [setFirstStatus]
  | cons a rest ih =>
    by_cases he : a.email = email
    · simp only [setFirstStatus, if_pos he]
      simp [List.filter_cons, he]
    · simp only [setFirstStatus, if_neg he]
      simp [List.filter_cons, he]
      simpa using ih

theorem teamAccounts_update_account_status (tr : Tracker) (team email status now : String) :
    teamAccounts (update_account_status tr team email status now) team
      = setFirstStatus email status now (teamAccounts tr team) := by
  unfold update_account_status
  cases hf : dictFind tr.teams team with
  | none => simp [teamAccounts, hf, setFirstStatus]
  | some l => simp [teamAccounts, hf, dictFind_dictSet_self]

theorem teamAccounts_remove (tr : Tracker) (team email : String) :
    teamAccounts (remove_account_from_tracker tr team email).1 team
      = (teamAccounts tr team).filter (fun a => a.email ≠ email) := by
  unfold remove_account_from_tracker
  cases hf : dictFind tr.teams team with
  | none => simp [teamAccounts, hf]
  | some l => simp [teamAccounts, hf, dictFind_dictSet_self]

theorem updateOrAppendPw_eq_append_of_not_mem (email pw status now : String)
    (l : List Account) (h : email ∉ l.map Account.email) :
    updateOrAppendPw email pw status now l
      = l ++ [freshAccountPw email pw status now] := by
  induction l with
  | nil => simp [updateOrAppendPw]
  | cons a rest ih =>
    have he : a.email ≠ email := fun hc => h (by simp [hc])
    have hr : email ∉ rest.map Account.email := fun hc => h (by simp [hc])
    simp [updateOrAppendPw, he, ih hr]

theorem teamAccounts_stamp (tr : Tracker) (team : String) (d : Option String) :
    teamAccounts { tr with last_updated := d } team = teamAccounts tr team := rfl

theorem map_email_filter_mem (p : Account → Bool) (l : List Account) (x : String)
    (h : x ∈ (l.filter p).map Account.email) : x ∈ l.map Account.email := by
  rcases List.mem_map.mp h with ⟨a, ha, hx⟩
  exact List.mem_map.mpr ⟨a, (List.mem_filter.mp ha).1, hx⟩

/-! ## Theorems for C2 -/

theorem teamAccounts_save_tracker (t d : Tracker) (now team : String) :
    teamAccounts (save_team_tracker ⟨t, d⟩ now).tracker team
      = teamAccounts t team := rfl

/-- C2 (amended): when registration reports the domain-not-supported
condition for an account that passed the blacklist pre-check, the record is
removed from the tracker, its domain is appended to the in-memory and
persisted blacklist, and the tracker is saved; a replacement invited record
is inserted exactly when a fresh, non-blacklisted mailbox is created and its
invitation succeeds — when mailbox creation fails, no replacement is added
(the claim as stated, with an unconditional replacement, fails; see the
counterexample). -/
theorem C2_blacklist_replace (acc : AccountIn) (bl : List String) (env : ProcEnv)
    (team now : String) (s0 : PState)
    (hbl : s0.blMem = bl)
    (hpre : is_email_blacklisted bl acc.email = false)
    (hrole : ¬(acc.role = "owner" ∨ acc.status = "team_owner"))
    (hstat : ¬(acc.status = "registered" ∨ acc.status = "authorized" ∨
        acc.status = "auth_failed" ∨ acc.status = "partial"))
    (hreg : env.reg = RegResult.domainBlacklisted)
    (hdom : get_domain_from_email acc.email ≠ "") :
    (execEvs team now s0 (processAccountEvents acc bl env)).blMem
        = bl ++ [get_domain_from_email acc.email] ∧
    (execEvs team now s0 (processAccountEvents acc bl env)).blDisk
        = bl ++ [get_domain_from_email acc.email] ∧
    (execEvs team now s0 (processAccountEvents acc bl env)).disk
        = (execEvs team now s0 (processAccountEvents acc bl env)).tracker ∧
    (∀ ne np, env.regNewEmail = some (ne, np) →
      is_email_blacklisted (blacklistAdd bl (get_domain_from_email acc.email)) ne = false →
      env.regInviteOk = true →
      ne ∉ (teamAccounts s0.tracker team).map Account.email →
      teamAccounts (execEvs team now s0 (processAccountEvents acc bl env)).tracker team
        = (teamAccounts s0.tracker team).filter (fun a => a.email ≠ acc.email)
          ++ [freshAccountPw ne np "invited" now]) ∧
    (env.regNewEmail = none →
      teamAccounts (execEvs team now s0 (processAccountEvents acc bl env)).tracker team
        = (teamAccounts s0.tracker team).filter (fun a => a.email ≠ acc.email)) := by
  have hdomnot : get_domain_from_email acc.email ∉ bl := by
    simpa [is_email_blacklisted, is_domain_blacklisted] using hpre
  have htr : processAccountEvents acc bl env
      = Ev.setStatus acc.email "processing" :: Ev.save ::
        Ev.stage "register_and_authorize" ::
        domainBlacklistEvents acc.email bl env := by
    simp [processAccountEvents, mainPipelineEvents, hpre, hrole, hstat, hreg]
  rw [htr]
  -- the state after the processing transition, its save, and the stage marker
  have hstep3 : ∀ rest : List Ev,
      execEvs team now s0 (Ev.setStatus acc.email "processing" :: Ev.save ::
        Ev.stage "register_and_authorize" :: rest)
      = execEvs team now
          { tracker := (save_team_tracker
              ⟨update_account_status s0.tracker team acc.email "processing" now,
               s0.disk⟩ now).tracker,
            disk := (save_team_tracker
              ⟨update_account_status s0.tracker team acc.email "processing" now,
               s0.disk⟩ now).disk,
            blMem := s0.blMem, blDisk := s0.blDisk, csv := s0.csv } rest :=
    fun rest => rfl
  rw [hstep3]
  -- the blacklist event appends the domain (non-empty, not yet present)
  have haddbl : add_domain_to_blacklist ⟨s0.blMem, s0.blDisk⟩
        (get_domain_from_email acc.email)
      = (⟨bl ++ [get_domain_from_email acc.email],
          bl ++ [get_domain_from_email acc.email]⟩, true) := by
    rw [hbl]
    simp [add_domain_to_blacklist, hdom, hdomnot]
  cases hn : env.regNewEmail with
  | none =>
    have hev : domainBlacklistEvents acc.email bl env
        = [Ev.addBlacklist (get_domain_from_email acc.email),
           Ev.removeAccount acc.email, Ev.save] := by
      simp [domainBlacklistEvents, hn]
    rw [hev]
    refine ⟨?_, ?_, ?_, ?_, ?_⟩
    · simp [execEvs, execEv, haddbl, save_team_tracker]
    · simp [execEvs, execEv, haddbl, save_team_tracker]
    · simp [execEvs, execEv, haddbl, save_team_tracker]
    · intro ne np hcontra
      exact absurd hcontra (by simp)
    · intro _
      simp only [execEvs, execEv]
      rw [teamAccounts_save_tracker, teamAccounts_remove, teamAccounts_save_tracker,
        teamAccounts_update_account_status, filter_setFirstStatus]
  | some nep =>
    obtain ⟨ne0, np0⟩ := nep
    by_cases h2 : is_email_blacklisted
        (blacklistAdd bl (get_domain_from_email acc.email)) ne0 = false
    · cases hi : env.regInviteOk with
      | false =>
        have hev : domainBlacklistEvents acc.email bl env
            = [Ev.addBlacklist (get_domain_from_email acc.email),
               Ev.removeAccount acc.email, Ev.save] := by
          simp [domainBlacklistEvents, hn, h2, hi]
        rw [hev]
        refine ⟨?_, ?_, ?_, ?_, ?_⟩
        · simp [execEvs, execEv, haddbl, save_team_tracker]
        · simp [execEvs, execEv, haddbl, save_team_tracker]
        · simp [execEvs, execEv, haddbl, save_team_tracker]
        · intro ne np hsome _ hinv _
          exact absurd hinv (by simp)
        · intro hcontra
          exact absurd hcontra (by simp)
      | true =>
        have hev : domainBlacklistEvents acc.email bl env
            = [Ev.addBlacklist (get_domain_from_email acc.email),
               Ev.removeAccount acc.email, Ev.save,
               Ev.addAccount ne0 np0 "invited", Ev.save] := by
          simp [domainBlacklistEvents, hn, h2, hi]
        rw [hev]
        refine ⟨?_, ?_, ?_, ?_, ?_⟩
        · simp [execEvs, execEv, haddbl, save_team_tracker,
            add_account_with_password, remove_account_from_tracker,
            update_account_status]
        · simp [execEvs, execEv, haddbl, save_team_tracker,
            add_account_with_password, remove_account_from_tracker,
            update_account_status]
        · simp [execEvs, execEv, haddbl, save_team_tracker,
            add_account_with_password, remove_account_from_tracker,
            update_account_status]
        · intro ne np hsome hblack hinv hnm
          have h12 : ne0 = ne ∧ np0 = np := by
            constructor <;> injection hsome with hp <;> simp [Prod.ext_iff] at hp <;>
              simp [hp.1, hp.2]
          obtain ⟨he1, he2⟩ := h12
          subst he1
          subst he2
          simp only [execEvs, execEv]
          rw [teamAccounts_save_tracker, teamAccounts_add_account_with_password,
            teamAccounts_save_tracker, teamAccounts_remove, teamAccounts_save_tracker,
            teamAccounts_update_account_status, filter_setFirstStatus]
          refine updateOrAppendPw_eq_append_of_not_mem _ _ _ _ _ ?_
          intro hc
          exact hnm (map_email_filter_mem _ _ _ hc)
        · intro hcontra
          exact absurd hcontra (by simp)
    · have hev : domainBlacklistEvents acc.email bl env
          = [Ev.addBlacklist (get_domain_from_email acc.email),
             Ev.removeAccount acc.email, Ev.save] := by
        simp [domainBlacklistEvents, hn, h2]
      rw [hev]
      refine ⟨?_, ?_, ?_, ?_, ?_⟩
      · simp [execEvs, execEv, haddbl, save_team_tracker]
      · simp [execEvs, execEv, haddbl, save_team_tracker]
      · simp [execEvs, execEv, haddbl, save_team_tracker]
      · intro ne np hsome hblack _ _
        have hne : ne0 = ne := by
          injection hsome with hp
          simp [Prod.ext_iff] at hp
          exact hp.1
        rw [hne] at h2
        exact absurd hblack h2
      · intro hcontra
        exact absurd hcontra (by simp)

/-- C2 counterexample to the claim as stated: registration reports the
domain-not-supported condition for user@bad.com but the fresh-mailbox
creation fails (unified_create_email returns nothing); the record is removed
and bad.com is blacklisted, yet no replacement invited record is inserted —
the team list ends up empty, so no run inserts the promised replacement. -/
theorem C2_blacklist_replace_counterexample :
    (execEvs "t1" "d1"
        ⟨⟨[("t1", [freshAccountPw "user@bad.com" "pw" "invited" "d0"])], none⟩,
         ⟨[("t1", [freshAccountPw "user@bad.com" "pw" "invited" "d0"])], none⟩,
         [], [], []⟩
        (processAccountEvents ⟨"user@bad.com", "pw", "invited", "member"⟩ []
          ⟨RegResult.domainBlacklisted, none, false, none, none, false, none, false⟩)).blMem
      = ["bad.com"] ∧
    teamAccounts (execEvs "t1" "d1"
        ⟨⟨[("t1", [freshAccountPw "user@bad.com" "pw" "invited" "d0"])], none⟩,
         ⟨[("t1", [freshAccountPw "user@bad.com" "pw" "invited" "d0"])], none⟩,
         [], [], []⟩
        (processAccountEvents ⟨"user@bad.com", "pw", "invited", "member"⟩ []
          ⟨RegResult.domainBlacklisted, none, false, none, none, false, none, false⟩)).tracker
      "t1" = [] := by
  decide

/-- Witness for C2 (amended) on the success path: the bad record is
replaced by exactly one fresh invited record. -/
theorem C2_blacklist_replace_witness :
    teamAccounts (execEvs "t1" "d1"
        ⟨⟨[("t1", [freshAccountPw "user@bad.com" "pw" "invited" "d0"])], none⟩,
         ⟨[("t1", [freshAccountPw "user@bad.com" "pw" "invited" "d0"])], none⟩,
         [], [], []⟩
        (processAccountEvents ⟨"user@bad.com", "pw", "invited", "member"⟩ []
          ⟨RegResult.domainBlacklisted, none, false, none, none, false,
           some ("fresh@ok.com", "pw2"), true⟩)).tracker "t1"
      = [freshAccountPw "fresh@ok.com" "pw2" "invited" "d1"] := by
  have h := C2_blacklist_replace ⟨"user@bad.com", "pw", "invited", "member"⟩ []
    ⟨RegResult.domainBlacklisted, none, false, none, none, false,
     some ("fresh@ok.com", "pw2"), true⟩ "t1" "d1"
    ⟨⟨[("t1", [freshAccountPw "user@bad.com" "pw" "invited" "d0"])], none⟩,
     ⟨[("t1", [freshAccountPw "user@bad.com" "pw" "invited" "d0"])], none⟩,
     [], [], []⟩ rfl (by decide) (by decide) (by decide) rfl (by decide)
  have h4 := h.2.2.2.1 "fresh@ok.com" "pw2" rfl (by decide) rfl (by decide)
  simpa using h4

/-! ## Theorems for C3 -/

theorem filter_length_lt_of_mem_not {α : Type} (p : α → Bool) (l : List α)
    (h : ∃ a ∈ l, p a = false) : (l.filter p).length < l.length := by
  induction l with
  | nil => simp at h
  | cons b rest ih =>
    rcases h with ⟨a, ha, hpa⟩
    rcases List.mem_cons.mp ha with h1 | h1
    · subst h1
      simp only [List.filter_cons, hpa]
      simp only [Bool.false_eq_true, if_false, List.length_cons]
      exact Nat.lt_succ_of_le (List.length_filter_le p rest)
    · cases hb : p b
      · simp only [List.filter_cons, hb]
        simp only [Bool.false_eq_true, if_false, List.length_cons]
        exact Nat.lt_succ_of_le (List.length_filter_le p rest)
      · simp only [List.filter_cons, hb, if_true, List.length_cons]
        have := ih ⟨a, h1, hpa⟩
        simpa using this

/-- C3 (amended): when a team has incomplete member records (status not
crs_added, role not owner), process_single_team queues exactly those
records for phase 3, creates no new mailbox and leaves the tracker
unchanged; owner records are deferred and, in run_single_team, are
processed only after all member items.  The claim that all non-crs_added
tracker records are processed ahead of any newly-created record fails for
owners (see the counterexample). -/
theorem C3_resume_contract (apt : Nat) (defaultPw : String) (tr : Tracker)
    (team : String) (env : TeamEnv) (now : String)
    (hinc : incompleteMembers tr team ≠ []) :
    (process_single_team_plan apt defaultPw tr team env now).invited
      = (incompleteMembers tr team).map (incompleteProj defaultPw) ∧
    (process_single_team_plan apt defaultPw tr team env now).createdNew = [] ∧
    (process_single_team_plan apt defaultPw tr team env now).tracker = tr ∧
    run_single_team_order apt defaultPw tr team env now
      = (incompleteMembers tr team).map (incompleteProj defaultPw) ++
        (teamOwnerAccounts tr team).map (ownerProj defaultPw) := by
  have hskip : ¬ teamSkip apt tr team := by
    rintro ⟨-, hcomp, -⟩
    rcases List.exists_mem_of_ne_nil _ hinc with ⟨a, ha⟩
    have ha2 : a ∈ teamMemberAccounts tr team ∧ ¬ a.status = some "crs_added" := by
      simpa [incompleteMembers] using ha
    have hlt := filter_length_lt_of_mem_not (fun a => a.status == some "crs_added")
      (teamMemberAccounts tr team)
      ⟨a, ha2.1, by simp [ha2.2]⟩
    unfold teamCompletedCount at hcomp
    omega
  have hplan : process_single_team_plan apt defaultPw tr team env now
      = { invited := (incompleteMembers tr team).map (incompleteProj defaultPw),
          owners := teamOwnerAccounts tr team, tracker := tr,
          createdNew := [], skipped := false } := by
    unfold process_single_team_plan
    rw [if_neg hskip, if_pos hinc]
  refine ⟨?_, ?_, ?_, ?_⟩ <;>
    simp [run_single_team_order, hplan]

/-- C3 counterexample to the claim as stated: a team whose only tracker
record is an incomplete owner.  run_single_team first provisions and
processes a brand-new mailbox and only then the pre-existing owner record,
so a non-crs_added tracker record is processed after a newly-created one. -/
theorem C3_resume_contract_counterexample :
    run_single_team_order 4 "dp"
        ⟨[("t1", [⟨"owner@x.com", some "opw", some "invited", some "owner",
                   "d0", "d0"⟩])], none⟩
        "t1" ⟨1, [("new@y.com", "npw")], ["new@y.com"]⟩ "d1"
      = [⟨"new@y.com", "npw", "invited", "member"⟩,
         ⟨"owner@x.com", "opw", "invited", "owner"⟩] ∧
    (⟨"owner@x.com", some "opw", some "invited", some "owner", "d0", "d0"⟩ : Account)
        ∈ teamAllAccounts
          ⟨[("t1", [⟨"owner@x.com", some "opw", some "invited", some "owner",
                     "d0", "d0"⟩])], none⟩ "t1" ∧
    "new@y.com" ∉ (teamAllAccounts
          ⟨[("t1", [⟨"owner@x.com", some "opw", some "invited", some "owner",
                     "d0", "d0"⟩])], none⟩ "t1").map Account.email ∧
    ("new@y.com", "npw") ∈ (process_single_team_plan 4 "dp"
        ⟨[("t1", [⟨"owner@x.com", some "opw", some "invited", some "owner",
                   "d0", "d0"⟩])], none⟩
        "t1" ⟨1, [("new@y.com", "npw")], ["new@y.com"]⟩ "d1").createdNew := by
  refine ⟨?_, by decide, by decide, ?_⟩ <;>
    simp [run_single_team_order, process_single_team_plan, teamSkip,
      incompleteMembers, teamMemberAccounts, teamOwnerAccounts, teamAllAccounts,
      teamCompletedCount, ownerProj, dictFind]

/-- Witness for C3 (amended) at a team with one incomplete member record:
exactly that record is queued, nothing is created, and it precedes the
(empty) owner phase. -/
theorem C3_resume_contract_witness :
    (process_single_team_plan 4 "dp"
        ⟨[("t1", [freshAccountPw "a@x.com" "pw" "registered" "d0"])], none⟩
        "t1" ⟨3, [], []⟩ "d1").invited
      = [⟨"a@x.com", "pw", "registered", "member"⟩] ∧
    (process_single_team_plan 4 "dp"
        ⟨[("t1", [freshAccountPw "a@x.com" "pw" "registered" "d0"])], none⟩
        "t1" ⟨3, [], []⟩ "d1").createdNew = [] := by
  have h := C3_resume_contract 4 "dp"
    ⟨[("t1", [freshAccountPw "a@x.com" "pw" "registered" "d0"])], none⟩
    "t1" ⟨3, [], []⟩ "d1" (by decide)
  exact ⟨by rw [h.1]; decide, h.2.1⟩

/-! ## Theorems for C6 -/

theorem codeRetryAux_resend_le (env : VerifyEnv) (maxRetries : Nat) :
    ∀ (fuel i : Nat) (code : String),
      (codeRetryAux env maxRetries fuel i code).2.2 ≤ fuel := by
  intro fuel
  induction fuel with
  | zero => intro i code; simp [codeRetryAux]
  | succ n ih =>
    intro i code
    unfold codeRetryAux
    by_cases h1 : env.incorrectShown i = true
    · by_cases h2 : i < maxRetries - 1
      · by_cases h3 : env.resendAvailable i = true
        · simpa [h1, h2, h3] using ih (i + 1) _
        · simp only [h1, if_pos h2, h3]
          simpa using Nat.le_succ_of_le (ih (i + 1) code)
      · simp [h1, h2]
    · simp [h1]

/-- C6: the loop never performs more than 3 resend cycles; and when the page
reports the code incorrect on every submission, with the resend control
available and a fresh code fetched each cycle, the loop submits exactly three
codes — the initial one and then each freshly fetched one, never resubmitting
the previous code — performs exactly two resend cycles, and returns failure. -/
theorem C6_verification_retry_bound (env : VerifyEnv) (code0 : String)
    (f : Nat → String)
    (hinc : ∀ i, env.incorrectShown i = true)
    (hres : ∀ i, env.resendAvailable i = true)
    (hf : ∀ i, env.refetch i = some (f i)) :
    codeRetryLoop env code0 = (VerifyOutcome.failure, [code0, f 0, f 1], 2) ∧
    (∀ (env2 : VerifyEnv) (c2 : String), (codeRetryLoop env2 c2).2.2 ≤ 3) := by
  constructor
  · simp [codeRetryLoop, codeRetryAux, hinc, hres, hf]
  · intro env2 c2
    exact codeRetryAux_resend_le env2 3 3 0 c2

/-- Witness for C6 at a concrete environment where every submission is
reported incorrect. -/
theorem C6_verification_retry_bound_witness :
    codeRetryLoop ⟨fun _ => true, fun _ => true, fun _ => some "c", fun _ => ""⟩ "c0"
      = (VerifyOutcome.failure, ["c0", "c", "c"], 2) :=
  (C6_verification_retry_bound
    ⟨fun _ => true, fun _ => true, fun _ => some "c", fun _ => ""⟩
    "c0" (fun _ => "c") (fun _ => rfl) (fun _ => rfl) (fun _ => rfl)).1

/-! ## Theorems for C7 -/

theorem gptGetCodeAux_eq_findSome (fetch : Nat → List MailMsg) :
    ∀ (fuel i : Nat),
      gptGetCodeAux fetch fuel i
        = (List.range fuel).findSome?
            (fun k => (fetch (i + k)).head?.bind extractFromMsg) := by
  intro fuel
  induction fuel with
  | zero => intro i; simp [gptGetCodeAux]
  | succ n ih =>
    intro i
    have hsplit : gptGetCodeAux fetch (n + 1) i
        = match (fetch i).head?.bind extractFromMsg with
          | some r => some r
          | none => gptGetCodeAux fetch n (i + 1) := by
      conv_lhs => unfold gptGetCodeAux
      cases hb : (fetch i).head? with
      | none => simp
      | some m => cases he : extractFromMsg m <;> simp [hb, he]
    rw [hsplit, List.range_succ_eq_map, List.findSome?_cons]
    simp only [Nat.add_zero]
    rw [List.findSome?_map]
    have heq : ((fun k => (fetch (i + k)).head?.bind extractFromMsg) ∘ Nat.succ)
        = (fun k => (fetch (i + 1 + k)).head?.bind extractFromMsg) := by
      funext k
      have h2 : i + (k + 1) = i + 1 + k := by omega
      simp [Function.comp, Nat.succ_eq_add_one, h2]
    rw [heq, ← ih (i + 1)]
    cases hh : (fetch i).head?.bind extractFromMsg <;> simp [hh]

theorem cloudGetCodeAux_eq_findSome (fetch : Nat → Option (List MailMsg)) :
    ∀ (fuel i : Nat),
      cloudGetCodeAux fetch fuel i
        = (List.range fuel).findSome?
            (fun k => (((fetch (i + k)).getD []).head?).bind
              (fun m => (cloud_extract_subject m.subject).map
                (fun c => (c, m.created_at)))) := by
  intro fuel
  induction fuel with
  | zero => intro i; simp [cloudGetCodeAux]
  | succ n ih =>
    intro i
    have hsplit : cloudGetCodeAux fetch (n + 1) i
        = match (((fetch i).getD []).head?).bind
            (fun m => (cloud_extract_subject m.subject).map
              (fun c => (c, m.created_at))) with
          | some r => some r
          | none => cloudGetCodeAux fetch n (i + 1) := by
      conv_lhs => unfold cloudGetCodeAux
      cases hb : ((fetch i).getD []).head? with
      | none => simp
      | some m => cases he : cloud_extract_subject m.subject <;> simp [hb, he]
    rw [hsplit, List.range_succ_eq_map, List.findSome?_cons]
    simp only [Nat.add_zero]
    rw [List.findSome?_map]
    have heq : ((fun k => (((fetch (i + k)).getD []).head?).bind
          (fun m => (cloud_extract_subject m.subject).map
            (fun c => (c, m.created_at)))) ∘ Nat.succ)
        = (fun k => (((fetch (i + 1 + k)).getD []).head?).bind
          (fun m => (cloud_extract_subject m.subject).map
            (fun c => (c, m.created_at)))) := by
      funext k
      have h2 : i + (k + 1) = i + 1 + k := by omega
      simp [Function.comp, Nat.succ_eq_add_one, h2]
    rw [heq, ← ih (i + 1)]
    cases hh : (((fetch i).getD []).head?).bind
        (fun m => (cloud_extract_subject m.subject).map
          (fun c => (c, m.created_at))) <;> simp [hh]

/-- C7 (amended): the GPTMail poll loop returns exactly the first poll round
whose most recent message yields a code — with no baseline-count
qualification, so stale pre-existing mail is matched (see the
counterexample); within a message the subject is tried before the content;
within a text the localized 代码为 pattern takes precedence over all later
patterns, and the bare six-digit pattern is used only when every localized
pattern fails; the Cloud Mail variant likewise polls with no baseline and
applies its shorter pattern list to the subject only. -/
theorem C7_code_extraction :
    (∀ (fetch : Nat → List MailMsg) (n : Nat),
      gptmail_get_verification_code fetch n = pollFirstHit fetch n) ∧
    (∀ (m : MailMsg) (c : String), extract_code m.subject = some c →
      extractFromMsg m = some (c, m.created_at)) ∧
    (∀ (text c : String), text ≠ "" →
      searchCode "代码为".data isWs text.data = some c →
      extract_code text = some c) ∧
    (∀ (text : String), text ≠ "" →
      searchCode "代码为".data isWs text.data = none →
      searchCode "code is".data isWs text.data = none →
      searchCode "verification code".data isColonWs text.data = none →
      searchCode "验证码".data isCnColonWs text.data = none →
      extract_code text = searchCode [] (fun _ => false) text.data) ∧
    (∀ (fetch : Nat → Option (List MailMsg)) (n : Nat),
      cloudmail_get_verification_code fetch n = cloudPollFirstHit fetch n) := by
  refine ⟨?_, ?_, ?_, ?_, ?_⟩
  · intro fetch n
    unfold gptmail_get_verification_code pollFirstHit
    simpa using gptGetCodeAux_eq_findSome fetch n 0
  · intro m c h
    unfold extractFromMsg
    rw [h]
  · intro text c htext h
    unfold extract_code
    rw [if_neg htext, h]
  · intro text htext h1 h2 h3 h4
    unfold extract_code
    rw [if_neg htext, h1, h2, h3, h4]
  · intro fetch n
    unfold cloudmail_get_verification_code cloudPollFirstHit
    simpa using cloudGetCodeAux_eq_findSome fetch n 0

/-- C7 counterexample to the claim as stated: the inbox holds one stale
message that predates the request (baseline count 1, inbox size 1, so per
the spec no message qualifies and the spec-modelled poll times out), yet the
source extracts the six-digit code from that stale message — and from its
content only after its subject, exhibiting the missing baseline check. -/
theorem C7_code_extraction_counterexample :
    gptmail_get_verification_code
        (fun _ => [⟨"hello", "代码为 123456", "t0"⟩]) 3
      = some ("123456", "t0") ∧
    spec_get_verification_code 1
        (fun _ => [⟨"hello", "代码为 123456", "t0"⟩]) 3
      = none := by
  decide

/-- Witness for C7 (amended) at a concrete inbox and a concrete text where
two six-digit runs occur after the localized marker. -/
theorem C7_code_extraction_witness :
    gptmail_get_verification_code
        (fun _ => [⟨"your code is 654321", "body", "t1"⟩]) 2
      = pollFirstHit (fun _ => [⟨"your code is 654321", "body", "t1"⟩]) 2 ∧
    extract_code "代码为 111111 222222" = some "111111" :=
  ⟨C7_code_extraction.1 (fun _ => [⟨"your code is 654321", "body", "t1"⟩]) 2,
   C7_code_extraction.2.2.1 "代码为 111111 222222" "111111" (by decide) (by decide)⟩

/-! ## Theorems for C9 -/

/-- C9 (amended): load_team_tracker never raises (every exception path is
caught) and returns the well-formed empty tracker whenever the file is
absent, unreadable or unparseable; the empty default is structurally valid;
but a file that parses to any JSON value is returned as-is, so structural
validity is guaranteed only in the failure cases, not for arbitrary
parseable content (see the counterexample). -/
theorem C9_load_tracker_total :
    load_team_tracker FsTracker.absent = emptyTrackerJson ∧
    load_team_tracker FsTracker.unreadable = emptyTrackerJson ∧
    load_team_tracker FsTracker.invalidJson = emptyTrackerJson ∧
    isValidTracker emptyTrackerJson = true ∧
    (∀ j : Json, load_team_tracker (FsTracker.valid j) = j) :=
  ⟨rfl, rfl, rfl, rfl, fun _ => rfl⟩

/-- C9 counterexample to the claim as stated: a file containing the valid
JSON document []: it parses, load_team_tracker returns it unchanged, and it
is not a structurally valid tracker — so an Orchestrator entry point can
start from a structurally invalid tracker. -/
theorem C9_load_tracker_counterexample :
    load_team_tracker (FsTracker.valid (Json.arr [])) = Json.arr [] ∧
    isValidTracker (Json.arr []) = false :=
  ⟨rfl, rfl⟩

/-! ## Theorems for C8 -/

theorem micro_mem_accountSteps (idx : Nat) (stages : List (String × List String))
    (j : Nat) (stage tag : String)
    (h : RStep.micro j stage tag ∈ accountSteps idx stages) : j = idx := by
  unfold accountSteps at h
  rcases List.mem_cons.mp h with h1 | h1
  · simp at h1
  · rcases List.mem_flatten.mp h1 with ⟨l, hl, hs⟩
    rcases List.mem_map.mp hl with ⟨st, hst, rfl⟩
    rcases List.mem_map.mp hs with ⟨t, ht, heq⟩
    cases heq
    rfl

theorem micro_mem_coopAux (j fb : Nat) (stage tag : String) :
    ∀ (l : List (List (String × List String))) (i : Nat),
      RStep.micro j stage tag ∈ coopAux l i fb → j < fb := by
  intro l
  induction l with
  | nil => intro i h; simp [coopAux] at h
  | cons a rest ih =>
    intro i h
    unfold coopAux at h
    by_cases hle : fb ≤ i
    · simp [hle] at h
    · rw [if_neg hle] at h
      rcases List.mem_append.mp h with h1 | h1
      · have := micro_mem_accountSteps i a j stage tag h1
        omega
      · exact ih (i + 1) h1

/-- C8 (amended): the tracker is flushed on every exit path (the handler
flushes and atexit flushes again); an interrupted run executes nothing
beyond the interruption point besides the handler flushes and the exit —
in particular the in-flight account is aborted where the signal struck,
not allowed to finish its stage (see the counterexample); and once the
shutdown flag is set before an account boundary, no step of that account
or any later account executes. -/
theorem C8_cooperative_cancellation
    (accounts : List (List (String × List String))) (k fb i : Nat)
    (stage tag : String) :
    RStep.flushTracker ∈ interruptedRun accounts k ∧
    (∀ s, s ∈ interruptedRun accounts k →
      s ∈ (loopSteps accounts).take k ∨ s = RStep.flushTracker ∨
      s = RStep.exitProcess 0) ∧
    (fb ≤ i → RStep.micro i stage tag ∉ cooperativeRun accounts fb) := by
  refine ⟨?_, ?_, ?_⟩
  · unfold interruptedRun firstSignalHandlerSteps
    simp
  · intro s hs
    rcases List.mem_append.mp hs with h1 | h1
    · exact Or.inl h1
    · right
      simpa [firstSignalHandlerSteps] using h1
  · intro hle hmem
    unfold cooperativeRun at hmem
    rcases List.mem_append.mp hmem with h1 | h1
    · have := micro_mem_coopAux i fb stage tag accounts 0 h1
      omega
    · simp at h1

/-- C8 counterexample to the claim as stated: one account with a two-step
register stage and an authorize stage; the signal arrives after the first
register micro-step (position 2).  Under the claimed semantics the register
stage completes (its second micro-step r2 executes before exit); in the
source the handler exits immediately, so r2 never executes. -/
theorem C8_cooperative_cancellation_counterexample :
    RStep.micro 0 "register" "r2"
        ∈ specInterruptedRun [[("register", ["r1", "r2"]), ("authorize", ["a1"])]] 2 ∧
    RStep.micro 0 "register" "r2"
        ∉ interruptedRun [[("register", ["r1", "r2"]), ("authorize", ["a1"])]] 2 ∧
    RStep.flushTracker
        ∈ interruptedRun [[("register", ["r1", "r2"]), ("authorize", ["a1"])]] 2 := by
  decide

/-- Witness for C8 at a concrete run: with the flag set before the first
boundary, no micro-step of account 0 executes. -/
theorem C8_cooperative_cancellation_witness :
    RStep.micro 0 "register" "r1"
      ∉ cooperativeRun [[("register", ["r1", "r2"])]] 0 :=
  (C8_cooperative_cancellation [[("register", ["r1", "r2"])]] 0 0 0
    "register" "r1").2.2 (Nat.le_refl 0)

end Prov
